import Mathlib

/-!
Verification development for the `liblifthttp` HTTP client library.

This file gives a shallow embedding, in Lean 4, of the parts of the library
that the specification's claims are about:

* `src/src/Request.cpp` — the `Request` object: status mapping
  (`setCompletionStatus`), completion dispatch (`onComplete`), the header
  buffer and its index (`AddHeader`, `curl_write_header`), the download-cap
  write callback (`curl_write_data`), body exclusivity (`SetRequestData`,
  `AddMimeField`), url/timeout setters, and `Reset`.
* `src/src/RequestPool.cpp` — the free-list pool (`Reserve`, `Produce`,
  `returnRequest`).

Modelling conventions:

* C++ `std::string` buffers that hand out `string_view` slices are modelled
  by `GrowBuf`: contents (`List Char`), a capacity, and a reallocation
  generation counter.  `std::string::reserve` to a larger capacity
  reallocates the storage, which invalidates every previously taken
  `string_view` into it; the model increments `gen` on such a growth, and a
  stored slice carries the generation at which it was taken.  Reading a
  slice whose generation is stale models the (undefined) dangling read as
  `none`.
* The libcurl easy handle is modelled only through the option slots the
  claims need (`m_curl_timeout_ms` for `CURLOPT_TIMEOUT_MS`); setting the
  URL on the engine is modelled by an oracle `UrlEngine : String → Option
  String` which returns the effective URL when `curl_easy_setopt(CURLOPT_URL)`
  succeeds and `CURLINFO_EFFECTIVE_URL` is non-null, and `none` otherwise.
* `ssize_t` counters are `Int`; `uint64_t` time points are `Nat` with
  explicit `% 2^64` where subtraction can wrap.
* The event loop's response-wait deadline multiset is modelled as a list of
  entry identifiers; the iterator a `Request` stores into it is the
  identifier of its entry.
-/

namespace Lift

/-- The completion status of a request, from `lift/RequestStatus.h` as used
throughout `Request.cpp`. -/
inductive RequestStatus where
  | BUILDING
  | EXECUTING
  | SUCCESS
  | TIMEOUT
  | RESPONSE_WAIT_TIME_TIMEOUT
  | RESPONSE_EMPTY
  | CONNECT_ERROR
  | CONNECT_DNS_ERROR
  | CONNECT_SSL_ERROR
  | DOWNLOAD_ERROR
  | ERROR_FAILED_TO_START
  | ERROR
  deriving DecidableEq, Repr

/-- The transport engine result codes distinguished by
`Request::setCompletionStatus`; every other libcurl code is collapsed into
`CURLE_OTHER` carrying its numeric value, matching the `default:` arm of the
switch. -/
inductive CURLcode where
  | CURLE_OK
  | CURLE_GOT_NOTHING
  | CURLE_OPERATION_TIMEDOUT
  | CURLE_COULDNT_CONNECT
  | CURLE_COULDNT_RESOLVE_HOST
  | CURLE_SSL_CONNECT_ERROR
  | CURLE_WRITE_ERROR
  | CURLE_SEND_ERROR
  | CURLE_OTHER (code : Nat)
  deriving DecidableEq, Repr

/-- A growable byte buffer: models a `std::string` used as an arena.
`cap` models `capacity()`; `gen` counts reallocations (a `reserve` beyond
the current capacity reallocates and invalidates outstanding
`string_view`s). -/
structure GrowBuf where
  data : List Char
  cap : Nat
  gen : Nat
  deriving DecidableEq, Repr

/-- A stored header slice: models the `std::string_view` kept in the header
index.  `sgen` is the buffer generation at which the view was taken (a view
taken before a reallocation dangles), `off`/`len` locate the text. -/
structure HeaderSlice where
  sgen : Nat
  off : Nat
  len : Nat
  deriving DecidableEq, Repr

/-- Resolve a stored slice against the buffer.  A slice taken at an earlier
generation points into freed storage; the dangling read is modelled as
`none`. -/
def readSlice (b : GrowBuf) (s : HeaderSlice) : Option (List Char) :=
  if s.sgen = b.gen then some ((b.data.drop s.off).take s.len) else none

/-- The capacity-doubling loop body of `AddHeader` / `curl_write_header`:
`do { capacity *= 2; } while (capacity < total_len);`, fuel-bounded (the
fuel is never exhausted for the positive capacities the code uses). -/
def growLoop : Nat → Nat → Nat → Nat
  | 0, cap, _ => cap
  | fuel + 1, cap, total => if cap < total then growLoop fuel (cap * 2) total else cap

/-- Capacity after the doubling loop, entered with `cap < total`: the body
runs once, then repeats while the capacity is still short. -/
def growCap (cap total : Nat) : Nat :=
  growLoop total (cap * 2) total

/-- `if (capacity < total_len) { ...reserve(grown capacity); }` — a growth
reallocates, bumping the generation. -/
def reserveGrow (b : GrowBuf) (total : Nat) : GrowBuf :=
  if b.cap < total then { data := b.data, cap := growCap b.cap total, gen := b.gen + 1 } else b

/-- `std::string::reserve(n)` as called from `Request::init`: only grows
(and then reallocates); a no-op when the capacity already suffices. -/
def reserveBuf (b : GrowBuf) (n : Nat) : GrowBuf :=
  if b.cap < n then { data := b.data, cap := n, gen := b.gen + 1 } else b

/-- Append `bytes` into the arena with the source's grow-then-take-view
discipline, and push a slice of length `slen` (taken at the post-growth
generation, at the pre-append end of the buffer) onto the index.  This is
the common shape of `Request::AddHeader` and `curl_write_header`. -/
def idxAppend (bytes : List Char) (slen : Nat) (b : GrowBuf) (idx : List HeaderSlice) :
    GrowBuf × List HeaderSlice :=
  let b1 := reserveGrow b (b.data.length + bytes.length)
  let s : HeaderSlice := ⟨b1.gen, b1.data.length, slen⟩
  ({ data := b1.data ++ bytes, cap := b1.cap, gen := b1.gen }, idx ++ [s])

/-- `HEADER_DEFAULT_MEMORY_BYTES` from `Request.cpp`. -/
def HEADER_DEFAULT_MEMORY_BYTES : Nat := 16384

/-- Mime parts held by the curl mime handle: a data field or a file field. -/
inductive MimePart where
  | dataField (name value : String)
  | fileField (name path : String)
  deriving DecidableEq, Repr

/-- The usage / runtime errors `Request`'s body setters throw. -/
inductive LiftErr where
  | logicError (msg : String)
  | runtimeError (msg : String)
  deriving DecidableEq, Repr

/-- The `lift::Request` state, restricted to the fields the claims touch.
Field names follow `lift/Request.h`.  `m_curl_timeout_ms` models the
`CURLOPT_TIMEOUT_MS` slot of the owned curl easy handle; the completion
handler is modelled by an identifier (`none` = `nullptr`). -/
structure Request where
  m_on_complete_handler : Option Nat
  m_url : String
  m_request_headers : GrowBuf
  m_request_headers_idx : List HeaderSlice
  m_headers_committed : Bool
  m_request_data : String
  m_mime_handle : Option (List MimePart)
  m_status_code : RequestStatus
  m_response_headers : GrowBuf
  m_response_headers_idx : List HeaderSlice
  m_response_data : List Char
  m_max_download_bytes : Int
  m_bytes_written : Int
  m_start_time : Nat
  m_total_time : Option Nat
  m_on_complete_has_been_called : Bool
  m_response_wait_time : Option Nat
  m_response_wait_time_set_iterator : Option Nat
  m_curl_timeout_ms : Option Nat
  deriving DecidableEq, Repr

/-- `Request::getRemainingDownloadBytes`:
`return m_max_download_bytes - m_bytes_written;` (`ssize_t` arithmetic). -/
def getRemainingDownloadBytes (r : Request) : Int :=
  r.m_max_download_bytes - r.m_bytes_written

/-- `Request::setCompletionStatus` (Request.cpp:454-504): maps the engine
result code to the request's completion status, preserving an already
stamped `RESPONSE_WAIT_TIME_TIMEOUT`. -/
def setCompletionStatus (curl_code : CURLcode) (r : Request) : Request :=
  if r.m_status_code = RequestStatus.RESPONSE_WAIT_TIME_TIMEOUT then r
  else
    match curl_code with
    | .CURLE_OK => { r with m_status_code := .SUCCESS }
    | .CURLE_GOT_NOTHING => { r with m_status_code := .RESPONSE_EMPTY }
    | .CURLE_OPERATION_TIMEDOUT => { r with m_status_code := .TIMEOUT }
    | .CURLE_COULDNT_CONNECT => { r with m_status_code := .CONNECT_ERROR }
    | .CURLE_COULDNT_RESOLVE_HOST => { r with m_status_code := .CONNECT_DNS_ERROR }
    | .CURLE_SSL_CONNECT_ERROR => { r with m_status_code := .CONNECT_SSL_ERROR }
    | .CURLE_WRITE_ERROR =>
        { r with m_status_code :=
            if getRemainingDownloadBytes r = 0 then .SUCCESS else .DOWNLOAD_ERROR }
    | .CURLE_SEND_ERROR => { r with m_status_code := .ERROR_FAILED_TO_START }
    | .CURLE_OTHER _ => { r with m_status_code := .ERROR }

/-- The completion-status mapping exactly as the specification words it
(claim C2); a second definition written from the spec, to be compared with
`setCompletionStatus`, which is written from the source. -/
def claimCompletionMap (curl_code : CURLcode) (capExactlyReached : Bool) : RequestStatus :=
  match curl_code with
  | .CURLE_OK => .SUCCESS
  | .CURLE_GOT_NOTHING => .RESPONSE_EMPTY
  | .CURLE_OPERATION_TIMEDOUT => .TIMEOUT
  | .CURLE_COULDNT_CONNECT => .CONNECT_ERROR
  | .CURLE_COULDNT_RESOLVE_HOST => .CONNECT_DNS_ERROR
  | .CURLE_SSL_CONNECT_ERROR => .CONNECT_SSL_ERROR
  | .CURLE_WRITE_ERROR => if capExactlyReached then .SUCCESS else .DOWNLOAD_ERROR
  | .CURLE_SEND_ERROR => .ERROR_FAILED_TO_START
  | .CURLE_OTHER _ => .ERROR

/-- `curl_write_data` (Request.cpp:606-646).  The chunk libcurl hands the
callback is `buffer` with `size * nitems` bytes, modelled as `chunk`; the
returned value is the number of bytes consumed (libcurl aborts the transfer
when it is shorter than the chunk).  `writeDataLength` is the length the
callback settles on: when a download cap is set the chunk is truncated to
the remaining budget (`ssize_t` arithmetic, with the defensive
`data_length = 0` arm for a negative remainder). -/
def writeDataLength (data_length : Nat) (r : Request) : Nat :=
  if r.m_max_download_bytes > -1 then
    if getRemainingDownloadBytes r > -1 then
      if (getRemainingDownloadBytes r).toNat < data_length
      then (getRemainingDownloadBytes r).toNat
      else data_length
    else 0
  else data_length

/-- `curl_write_data` itself: appends the (possibly truncated) chunk to the
response body, advances `m_bytes_written`, and returns the consumed
length. -/
def curl_write_data (chunk : List Char) (r : Request) : Request × Nat :=
  ({ r with
      m_response_data := r.m_response_data ++ chunk.take (writeDataLength chunk.length r)
      m_bytes_written := r.m_bytes_written + writeDataLength chunk.length r },
   writeDataLength chunk.length r)

/-- `Request::SetRequestData` (Request.cpp:258-276).  Throwing is modelled
by returning the untouched state together with the error; the success path
moves the data into the request (the `CURLOPT_POSTFIELDS` handle options
are engine-side and not modelled). -/
def SetRequestData (data : String) (r : Request) : Request × Option LiftErr :=
  if r.m_mime_handle ≠ none then
    (r, some (.logicError "Cannot SetRequestData on Request after using AddMimeField"))
  else if data = "" then (r, none)
  else ({ r with m_request_data := data }, none)

/-- `Request::AddMimeField(name, value)` (Request.cpp:283-299): refuses
after `SetRequestData`; otherwise lazily creates the mime handle and adds a
data part. -/
def AddMimeField (field_name field_value : String) (r : Request) : Request × Option LiftErr :=
  if r.m_request_data ≠ "" then
    (r, some (.logicError "Cannot AddMimeField on Request after using SetRequestData"))
  else
    let parts := r.m_mime_handle.getD []
    ({ r with m_mime_handle := some (parts ++ [.dataField field_name field_value]) }, none)

/-- `Request::AddMimeField(name, filepath)` (Request.cpp:301-321):
`fsExists` is the filesystem oracle for `std::filesystem::exists`. -/
def AddMimeFileField (fsExists : String → Bool) (field_name field_filepath : String)
    (r : Request) : Request × Option LiftErr :=
  if r.m_request_data ≠ "" then
    (r, some (.logicError "Cannot AddMimeField on Request after using SetRequestData"))
  else if ¬ fsExists field_filepath then
    (r, some (.runtimeError "Filepath for AddMimeField doesn't exist"))
  else
    let parts := r.m_mime_handle.getD []
    ({ r with m_mime_handle := some (parts ++ [.fileField field_name field_filepath]) }, none)

/-- `uint64_t` subtraction with wraparound, for
`finish_time.value() - m_start_time` in `Request::setTotalTime`. -/
def u64sub (a b : Nat) : Nat :=
  ((a % 2 ^ 64) + 2 ^ 64 - (b % 2 ^ 64)) % 2 ^ 64

/-- `Request::setTotalTime` (Request.cpp:79-93): with a supplied finish
time (a response-wait timeout fired) the elapsed time is
`finish_time - m_start_time`; otherwise the transport engine is queried
for `CURLINFO_TOTAL_TIME`, modelled by the oracle argument
`curl_total_time_ms`. -/
def setTotalTime (curl_total_time_ms : Nat) (finish_time : Option Nat) (r : Request) : Request :=
  match finish_time with
  | some t => { r with m_total_time := some (u64sub t r.m_start_time) }
  | none => { r with m_total_time := some curl_total_time_ms }

/-- `EventLoop::removeTimeoutByIterator`: erases exactly the referenced
entry from the loop's response-wait deadline multiset.  The multiset is
modelled as a list of entry identifiers and the stored iterator as the
identifier of the entry it points at. -/
def removeTimeoutByIterator (it : Nat) (dset : List Nat) : List Nat :=
  dset.erase it

/-- `Request::onComplete` (Request.cpp:506-533), as a transition on the
request plus the loop's deadline set.  It test-and-sets
`m_on_complete_has_been_called`; only a first entrant stamps
`RESPONSE_WAIT_TIME_TIMEOUT` (when a finish time was supplied), computes
the total time and invokes the user callback (when a handler is set).
Every entrant — first or not — then runs the deadline-removal step when the
request still stores a deadline-set iterator.  Returns the new request
state, the new deadline set, and whether the user callback was invoked. -/
def onComplete (curl_total_time_ms : Nat) (r : Request) (dset : List Nat)
    (finish_time : Option Nat) : Request × List Nat × Bool :=
  let fired := r.m_on_complete_has_been_called
  let r := { r with m_on_complete_has_been_called := true }
  let step :=
    if fired then (r, false)
    else
      let r := match finish_time with
        | some _ => { r with m_status_code := .RESPONSE_WAIT_TIME_TIMEOUT }
        | none => r
      let r := setTotalTime curl_total_time_ms finish_time r
      (r, r.m_on_complete_handler.isSome)
  let r := step.1
  let dset :=
    match r.m_response_wait_time_set_iterator with
    | some it => removeTimeoutByIterator it dset
    | none => dset
  (r, dset, step.2)

/-- A completion event: `some t` models the response-wait deadline firing
at time `t` (the loop passes `finish_time = now`); `none` models the
transport engine finishing or timing out (no finish time supplied). -/
def runCompletions (curl_total_time_ms : Nat) (events : List (Option Nat))
    (r : Request) (dset : List Nat) : Request × List Nat × Nat :=
  match events with
  | [] => (r, dset, 0)
  | e :: es =>
      let out := onComplete curl_total_time_ms r dset e
      let rest := runCompletions curl_total_time_ms es out.1 out.2.1
      (rest.1, rest.2.1, (if out.2.2 then 1 else 0) + rest.2.2)

/-- The transport engine's URL handling, abstracted: `engine url` is the
effective URL when `curl_easy_setopt(CURLOPT_URL)` returns `CURLE_OK` and
`curl_easy_getinfo(CURLINFO_EFFECTIVE_URL)` yields a non-null string, and
`none` when either step fails. -/
def UrlEngine : Type := String → Option String

/-- `Request::SetUrl` (Request.cpp:103-120): rejects the empty string
outright; otherwise asks the engine and, on success, stores the effective
URL in `m_url`. -/
def SetUrl (e : UrlEngine) (url : String) (r : Request) : Request × Bool :=
  if url = "" then (r, false)
  else
    match e url with
    | some curl_url => ({ r with m_url := curl_url }, true)
    | none => (r, false)

/-- `Request::SetCurlTimeout` (Request.cpp:197-207): only a strictly
positive timeout is handed to `CURLOPT_TIMEOUT_MS`; zero or negative is
refused and changes nothing. -/
def SetCurlTimeout (timeout_ms : Int) (r : Request) : Request × Bool :=
  if timeout_ms > 0 then ({ r with m_curl_timeout_ms := some timeout_ms.toNat }, true)
  else (r, false)

/-- `Request::SetOnCompleteHandler` (Request.cpp:97-101). -/
def SetOnCompleteHandler (h : Option Nat) (r : Request) : Request :=
  { r with m_on_complete_handler := h }

/-- `Request::SetResponseWaitTime` (Request.h:99-102). -/
def SetResponseWaitTime (timeout : Nat) (r : Request) : Request :=
  { r with m_response_wait_time := some timeout }

/-- `Request::SetMaxDownloadBytes` (Request.cpp:191-195). -/
def SetMaxDownloadBytes (max_download_bytes : Int) (r : Request) : Request :=
  { r with m_max_download_bytes := max_download_bytes, m_bytes_written := 0 }

/-- `Request::clearResponseBuffers` (Request.cpp:447-452): `clear()` on the
three response buffers empties the contents without reallocating. -/
def clearResponseBuffers (r : Request) : Request :=
  { r with
      m_response_headers := { r.m_response_headers with data := [] }
      m_response_headers_idx := []
      m_response_data := [] }

/-- `Request::init` (Request.cpp:55-77), restricted to the modelled state:
re-registers the write callbacks and private pointer on the curl handle
(engine-side, not modelled), calls `SetMaxDownloadBytes(m_max_download_bytes)`
(which zeroes `m_bytes_written`), reserves the default capacities on both
header buffers, and clears the committed flag. -/
def initRequest (r : Request) : Request :=
  let r := SetMaxDownloadBytes r.m_max_download_bytes r
  { r with
      m_request_headers := reserveBuf r.m_request_headers HEADER_DEFAULT_MEMORY_BYTES
      m_headers_committed := false
      m_response_headers := reserveBuf r.m_response_headers HEADER_DEFAULT_MEMORY_BYTES }

/-- `Request::Reset` (Request.cpp:389-417): clears URL, both header sides,
the request body (raw and mime), the response buffers; `curl_easy_reset`
restores the handle's defaults (modelled: the timeout slot); `init()` runs
again; then status returns to `BUILDING`, the download counters to the
unbounded default, and the completion flag, response-wait time and deadline
iterator are cleared.  `clear()` on the header arena keeps its storage, so
the buffer's capacity and generation survive a reset. -/
def Reset (r : Request) : Request :=
  let r := { r with
      m_url := ""
      m_request_headers := { r.m_request_headers with data := [] }
      m_request_headers_idx := []
      m_request_data := ""
      m_mime_handle := none }
  let r := clearResponseBuffers r
  let r := { r with m_curl_timeout_ms := none }
  let r := initRequest r
  { r with
      m_status_code := .BUILDING
      m_max_download_bytes := -1
      m_bytes_written := 0
      m_on_complete_has_been_called := false
      m_response_wait_time := none
      m_response_wait_time_set_iterator := none }

/-- A `Request` as the private constructor leaves it before any setter runs:
the member initializers of `lift/Request.h` plus `Request::init()` (buffers
reserved to `HEADER_DEFAULT_MEMORY_BYTES`, nothing appended, status
`BUILDING`). -/
def baseRequest : Request where
  m_on_complete_handler := none
  m_url := ""
  m_request_headers := ⟨[], HEADER_DEFAULT_MEMORY_BYTES, 0⟩
  m_request_headers_idx := []
  m_headers_committed := false
  m_request_data := ""
  m_mime_handle := none
  m_status_code := .BUILDING
  m_response_headers := ⟨[], HEADER_DEFAULT_MEMORY_BYTES, 0⟩
  m_response_headers_idx := []
  m_response_data := []
  m_max_download_bytes := -1
  m_bytes_written := 0
  m_start_time := 0
  m_total_time := none
  m_on_complete_has_been_called := false
  m_response_wait_time := none
  m_response_wait_time_set_iterator := none
  m_curl_timeout_ms := none

/-- The private `Request` constructor (Request.cpp:23-41): member
initializers store the handler, pool reference and download cap, `init()`
runs, then `SetUrl`, `SetCurlTimeout` and — only when supplied —
`SetResponseWaitTime` configure the freshly built object. -/
def freshRequest (e : UrlEngine) (url : String) (curl_timeout : Int)
    (response_wait_time : Option Nat) (on_complete_handler : Option Nat)
    (max_download_bytes : Int) : Request :=
  let r := { baseRequest with
      m_on_complete_handler := on_complete_handler
      m_max_download_bytes := max_download_bytes }
  let r := initRequest r
  let r := (SetUrl e url r).1
  let r := (SetCurlTimeout curl_timeout r).1
  match response_wait_time with
  | some w => SetResponseWaitTime w r
  | none => r

/-- The `Request` that `RequestPool::Reserve` constructs for the free-list
(RequestPool.cpp:5-20): empty URL, zero timeout, no response-wait time, and
a non-null no-op completion lambda (handler id 0). -/
def reserveFresh (e : UrlEngine) : Request :=
  freshRequest e "" 0 none (some 0) (-1)

/-- `RequestPool::Reserve(count)` (RequestPool.cpp:5-20): appends `count`
freshly constructed idle requests to the free-list (no reset is run on
them). -/
def Reserve (e : UrlEngine) (count : Nat) (pool : List Request) : List Request :=
  pool ++ List.replicate count (reserveFresh e)

/-- `RequestPool::Produce` (full overload, RequestPool.cpp:53-86).  The
free-list is a deque used as a stack: `back()`/`pop_back()`.  With an empty
free-list a new `Request` is constructed from all four arguments; otherwise
the popped request gets `SetOnCompleteHandler`, `SetUrl` and
`SetCurlTimeout` — and nothing else — applied to it. -/
def Produce (e : UrlEngine) (url : String) (on_complete_handler : Option Nat)
    (curl_timeout : Int) (response_wait_time : Option Nat) (pool : List Request) :
    Request × List Request :=
  match pool.getLast? with
  | none => (freshRequest e url curl_timeout response_wait_time on_complete_handler (-1), pool)
  | some back =>
      let r := SetOnCompleteHandler on_complete_handler back
      let r := (SetUrl e url r).1
      let r := (SetCurlTimeout curl_timeout r).1
      (r, pool.dropLast)

/-- `RequestPool::returnRequest` (RequestPool.cpp:88-96): resets the
request, then pushes it onto the free-list. -/
def returnRequest (r : Request) (pool : List Request) : List Request :=
  pool ++ [Reset r]

/-- The pool operations whose interleavings claim C4 quantifies over. -/
inductive PoolOp where
  | reserveOp (n : Nat)
  | produceOp (url : String) (on_complete_handler : Option Nat)
      (curl_timeout : Int) (response_wait_time : Option Nat)
  | returnOp (r : Request)

/-- One pool operation applied to the free-list. -/
def poolStep (e : UrlEngine) (pool : List Request) : PoolOp → List Request
  | .reserveOp n => Reserve e n pool
  | .produceOp url h t w => (Produce e url h t w pool).2
  | .returnOp r => returnRequest r pool

/-- The free-list after a sequence of pool operations, starting empty. -/
def runPool (e : UrlEngine) (ops : List PoolOp) : List Request :=
  ops.foldl (poolStep e) []

/-- The idle-request invariant of claim C4: status `BUILDING`, cleared
response buffers, cleared request headers. -/
def idleInvariant (r : Request) : Prop :=
  r.m_status_code = RequestStatus.BUILDING ∧
  r.m_request_headers.data = [] ∧
  r.m_request_headers_idx = [] ∧
  r.m_response_headers.data = [] ∧
  r.m_response_headers_idx = [] ∧
  r.m_response_data = []

/-- The bytes `Request::AddHeader` (Request.cpp:225-251) appends into the
request-header arena for one header: the name, the `": "` separator, the
value when non-empty, and the trailing null byte curl expects. -/
def serializeHeader (name value : List Char) : List Char :=
  name ++ [':', ' '] ++ (if value = [] then [] else value) ++ ['\x00']

/-- The text of one indexed header entry — the slice `AddHeader` records is
the serialized header minus the null byte (`header_len - 1`). -/
def headerText (name value : List Char) : List Char :=
  name ++ [':', ' '] ++ (if value = [] then [] else value)

/-- `Request::AddHeader(name, value)` (Request.cpp:225-251): marks the
committed headers stale, grows the arena by doubling when
`size + header_len` exceeds the capacity (reallocating — this is the
growth the stored views do not survive), appends the serialized header,
and records the view taken after the reserve.  The one-argument overload
is `AddHeader name []`. -/
def AddHeader (name value : List Char) (r : Request) : Request :=
  let header_len := name.length + value.length + 3
  let out := idxAppend (serializeHeader name value) (header_len - 1)
      r.m_request_headers r.m_request_headers_idx
  { r with
      m_headers_committed := false
      m_request_headers := out.1
      m_request_headers_idx := out.2 }

/-- A sequence of `AddHeader` calls in user order. -/
def runAddHeaders (r : Request) (hs : List (List Char × List Char)) : Request :=
  hs.foldl (fun r p => AddHeader p.1 p.2 r) r

/-- The `\r\n`-suffix trim of `curl_write_header`: when the line is at
least two bytes, one byte is dropped for a trailing `'\n'` and one more
for a `'\r'` in the second-to-last position (the two checks are
independent, exactly as in the source). -/
def trimEndCRLF (l : List Char) : List Char :=
  if 2 ≤ l.length then
    l.take (l.length -
      ((if l[l.length - 1]? = some '\n' then 1 else 0) +
       (if l[l.length - 2]? = some '\r' then 1 else 0)))
  else l

/-- The filtering pipeline of `curl_write_header` (Request.cpp:540-604):
empty chunks, the bare `"\r\n"` line and the `"HTTP/"` status line are
ignored (`none`); anything else is stored after the `\r\n` trim.  The
`substr(0, 5)` against `"HTTP/"` clamps like the C++ `substr`, which the
`take 5` models. -/
def headerFilter (data_view : List Char) : Option (List Char) :=
  if data_view = [] then none
  else if data_view.length = 2 ∧ data_view = ['\r', '\n'] then none
  else if 4 ≤ data_view.length ∧ data_view.take 5 = "HTTP/".toList then none
  else some (trimEndCRLF data_view)

/-- `curl_write_header` (Request.cpp:540-604): returns `0` (aborting the
transfer) when the completion callback already ran; otherwise appends the
filtered header line into the response-header arena with the same
grow-then-take-view discipline as `AddHeader` and reports the full chunk
consumed. -/
def curl_write_header (chunk : List Char) (r : Request) : Request × Nat :=
  if r.m_on_complete_has_been_called then (r, 0)
  else
    match headerFilter chunk with
    | none => (r, chunk.length)
    | some data_view =>
        let out := idxAppend data_view data_view.length
            r.m_response_headers r.m_response_headers_idx
        ({ r with m_response_headers := out.1, m_response_headers_idx := out.2 },
         chunk.length)

/-- A sequence of header chunks delivered by the engine. -/
def runWriteHeaders (r : Request) (chunks : List (List Char)) : Request :=
  chunks.foldl (fun r c => (curl_write_header c r).1) r

/-- The header lines that survive `curl_write_header`'s filters, in
arrival order. -/
def respTexts (chunks : List (List Char)) : List (List Char) :=
  chunks.filterMap headerFilter

/-- Resolve a whole index against its arena, in index order — the loop of
`Request::prepareForPerform` (Request.cpp:419-445) that builds the
committed curl header list from the stored views (each view's storage is
null-terminated by construction, so for headers without embedded null
bytes the C string curl copies is exactly the view).  `none` models any
view dangling (reading it would be undefined behaviour). -/
def commitSlices (b : GrowBuf) : List HeaderSlice → Option (List (List Char))
  | [] => some []
  | s :: rest =>
      match readSlice b s, commitSlices b rest with
      | some c, some cs => some (c :: cs)
      | _, _ => none

/-- The committed request-header list of `prepareForPerform`. -/
def committedRequestHeaders (r : Request) : Option (List (List Char)) :=
  commitSlices r.m_request_headers r.m_request_headers_idx

/-- Read back the `i`-th entry of the request-header index. -/
def readHeaderEntry (r : Request) (i : Nat) : Option (List Char) :=
  match r.m_request_headers_idx[i]? with
  | some s => readSlice r.m_request_headers s
  | none => none

/-- The per-slice invariant carried along a buffer's life, relative to the
generation `g0` the buffer started at: the slice was taken at or after
`g0`, not in the future, lies within the data, and — whenever its
generation is still current — resolves to its recorded text. -/
def SliceOk (g0 : Nat) (b : GrowBuf) (s : HeaderSlice) (c : List Char) : Prop :=
  g0 ≤ s.sgen ∧ s.sgen ≤ b.gen ∧ s.off + s.len ≤ b.data.length ∧
    (s.sgen = b.gen → (b.data.drop s.off).take s.len = c)

/-- Pointwise relation between an index and the texts its entries were
taken from. -/
def Tracks (P : HeaderSlice → List Char → Prop) : List HeaderSlice → List (List Char) → Prop
  | [], [] => True
  | s :: idx, c :: cs => P s c ∧ Tracks P idx cs
  | _, _ => False

/-- The buffer `idxAppend` produces (growth, then append). -/
def bufAfter (bytes : List Char) (b : GrowBuf) : GrowBuf :=
  let b1 := reserveGrow b (b.data.length + bytes.length)
  { data := b1.data ++ bytes, cap := b1.cap, gen := b1.gen }

/-- A header value long enough that appending it overflows the initially
reserved 16384-byte arena and forces a reallocation. -/
def bigHeaderValue : List Char := List.replicate 16380 'a'

/-- Two `AddHeader` calls whose second append reallocates the arena. -/
def overflowHeaders : List (List Char × List Char) :=
  [("A".toList, "B".toList), ("C".toList, bigHeaderValue)]

/-- A duplicate header name, first with an empty value then with a value —
exercising user order, duplicate preservation and the empty-value
serialization. -/
def dupHeaders : List (List Char × List Char) :=
  [("Accept".toList, ([] : List Char)), ("Accept".toList, "x".toList)]

/-- A concrete URL engine for witnesses: accepts any non-empty URL
unchanged. -/
def exampleEngine : UrlEngine := fun s => if s = "" then none else some s

/-- A request with a 5-byte download cap, used to exercise `curl_write_data`
on a concrete input. -/
def exampleCapRequest : Request :=
  { baseRequest with m_max_download_bytes := 5 }

/-- A request whose completion has already fired and which still stores a
deadline-set iterator (entry id 7) — the state a response-wait timeout
leaves behind, since `onComplete` never clears the stored iterator. -/
def exampleFiredRequest : Request :=
  { baseRequest with
      m_on_complete_has_been_called := true
      m_response_wait_time_set_iterator := some 7 }

/-- A request on which both body representations are (impossibly, for the
purpose of exercising both guards) populated. -/
def exampleBothBodies : Request :=
  { baseRequest with
      m_request_data := "x"
      m_mime_handle := some [.dataField "f" "v"] }

end Lift

namespace Lift

/-- After any entry to `onComplete`, the fired flag is set. -/
lemma onComplete_fired (t : Nat) (r : Request) (d : List Nat) (e : Option Nat) :
    (onComplete t r d e).1.m_on_complete_has_been_called = true := by
  unfold onComplete
  by_cases h : r.m_on_complete_has_been_called
  · simp [h]
  · cases e <;> simp [h, setTotalTime]

/-- A second entrant never invokes the user callback. -/
lemma onComplete_no_invoke_when_fired (t : Nat) (r : Request) (d : List Nat) (e : Option Nat)
    (h : r.m_on_complete_has_been_called = true) :
    (onComplete t r d e).2.2 = false := by
  unfold onComplete
  simp [h]

/-- Once the fired flag is set, no further completion event invokes the
callback. -/
lemma runCompletions_zero_of_fired (t : Nat) (events : List (Option Nat)) :
    ∀ (r : Request) (d : List Nat), r.m_on_complete_has_been_called = true →
      (runCompletions t events r d).2.2 = 0 := by
  induction events with
  | nil => intro r d _; rfl
  | cons e es ih =>
      intro r d h
      unfold runCompletions
      simp only [onComplete_no_invoke_when_fired t r d e h, Bool.false_eq_true, reduceIte,
        Nat.zero_add]
      exact ih _ _ (onComplete_fired t r d e)

/-- C1: for every submitted request, over any sequence of completion
events — engine finish, transport timeout, or response-wait deadline, in
any order and starting from any request state — the user callback is
invoked at most once: the test-and-set of `m_on_complete_has_been_called`
inside `onComplete` lets only the first entrant run it. -/
theorem C1_callback_invoked_at_most_once (t : Nat) (events : List (Option Nat))
    (r : Request) (d : List Nat) :
    (runCompletions t events r d).2.2 ≤ 1 := by
  cases events with
  | nil => exact Nat.zero_le 1
  | cons e es =>
      unfold runCompletions
      have hz := runCompletions_zero_of_fired t es (onComplete t r d e).1 (onComplete t r d e).2.1
        (onComplete_fired t r d e)
      simp only [hz]
      by_cases hi : (onComplete t r d e).2.2 <;> simp [hi]

/-- C6 (amended): when `onComplete` is entered with the fired flag already
set, it does not invoke the user callback and leaves the request — status,
total time, everything — unchanged; but it does NOT return before the
deadline-removal step: if the request still stores a deadline-set
iterator, that entry is removed from the loop's response-wait deadline set
even on a second entry. -/
theorem C6_second_entry_skips_callback_but_still_erases (t : Nat) (r : Request)
    (d : List Nat) (e : Option Nat)
    (h : r.m_on_complete_has_been_called = true) :
    (onComplete t r d e).1 = r ∧
    (onComplete t r d e).2.2 = false ∧
    (onComplete t r d e).2.1 =
      r.m_response_wait_time_set_iterator.elim d (fun it => removeTimeoutByIterator it d) := by
  cases r with
  | mk a1 a2 a3 a4 a5 a6 a7 a8 a9 a10 a11 a12 a13 a14 a15 a16 a17 a18 a19 =>
      subst h
      cases a18 <;> simp [onComplete, removeTimeoutByIterator]

/-- C6 witness: the frame theorem at a concrete already-fired request whose
iterator points at entry 7 of the deadline set `[7]`. -/
theorem C6_second_entry_skips_callback_but_still_erases_witness :
    (onComplete 0 exampleFiredRequest [7] none).1 = exampleFiredRequest ∧
    (onComplete 0 exampleFiredRequest [7] none).2.2 = false ∧
    (onComplete 0 exampleFiredRequest [7] none).2.1 =
      exampleFiredRequest.m_response_wait_time_set_iterator.elim [7]
        (fun it => removeTimeoutByIterator it [7]) :=
  C6_second_entry_skips_callback_but_still_erases 0 exampleFiredRequest [7] none (by decide)

/-- C6 counterexample to the claim as stated: a second entry of
`onComplete` does change the loop's response-wait deadline set — with the
fired flag already set and a stored iterator for entry 7, the set `[7]`
does not come back unchanged (it comes back empty). -/
theorem C6_counterexample_second_entry_changes_deadline_set :
    (onComplete 0 exampleFiredRequest [7] none).2.1 ≠ [7] := by decide

/-- C2: for every completed transfer, `setCompletionStatus` maps the engine
result code exactly as the specification's table says (with `WRITE_ERROR`
resolving to `SUCCESS` precisely when the download cap was exactly
reached), and leaves the request untouched when `RESPONSE_WAIT_TIME_TIMEOUT`
was already stamped. -/
theorem C2_completion_status_mapping (r : Request) (code : CURLcode) :
    setCompletionStatus code r =
      if r.m_status_code = RequestStatus.RESPONSE_WAIT_TIME_TIMEOUT then r
      else { r with m_status_code :=
        claimCompletionMap code (getRemainingDownloadBytes r = 0 : Bool) } := by
  by_cases h : r.m_status_code = RequestStatus.RESPONSE_WAIT_TIME_TIMEOUT
  · simp [setCompletionStatus, h]
  · cases code <;> simp [setCompletionStatus, claimCompletionMap, h]

/-- C3: with a non-negative download cap, one invocation of the data write
callback preserves `0 ≤ bytes_written ≤ max_download_bytes` (truncating the
chunk to the remaining budget), leaves the cap itself unchanged, and — when
the chunk would have pushed the total past the cap — returns a length
strictly shorter than the chunk, which makes the engine abort. -/
theorem C3_write_callback_cap_invariant (r : Request) (chunk : List Char)
    (hmax : 0 ≤ r.m_max_download_bytes)
    (h0 : 0 ≤ r.m_bytes_written)
    (hle : r.m_bytes_written ≤ r.m_max_download_bytes) :
    0 ≤ (curl_write_data chunk r).1.m_bytes_written ∧
    (curl_write_data chunk r).1.m_bytes_written ≤ r.m_max_download_bytes ∧
    (curl_write_data chunk r).1.m_max_download_bytes = r.m_max_download_bytes ∧
    (r.m_max_download_bytes < r.m_bytes_written + chunk.length →
      (curl_write_data chunk r).2 < chunk.length) := by
  have hgt : r.m_max_download_bytes > -1 := by omega
  have hleft : (0 : Int) ≤ getRemainingDownloadBytes r := by
    simp only [getRemainingDownloadBytes]; omega
  have hleftgt : getRemainingDownloadBytes r > -1 := by omega
  have htn : ((getRemainingDownloadBytes r).toNat : Int) = getRemainingDownloadBytes r :=
    Int.toNat_of_nonneg hleft
  have hrem : ((getRemainingDownloadBytes r).toNat : Int) =
      r.m_max_download_bytes - r.m_bytes_written := by
    rw [htn]; rfl
  have hwd : writeDataLength chunk.length r =
      if (getRemainingDownloadBytes r).toNat < chunk.length
      then (getRemainingDownloadBytes r).toNat else chunk.length := by
    unfold writeDataLength
    rw [if_pos hgt, if_pos hleftgt]
  refine ⟨?_, ?_, rfl, ?_⟩
  · show (0 : Int) ≤ r.m_bytes_written + writeDataLength chunk.length r
    have : (0 : Int) ≤ (writeDataLength chunk.length r : Int) := by positivity
    omega
  · show (r.m_bytes_written + writeDataLength chunk.length r : Int) ≤ r.m_max_download_bytes
    rw [hwd]
    by_cases hlt : (getRemainingDownloadBytes r).toNat < chunk.length
    · rw [if_pos hlt]; omega
    · rw [if_neg hlt]
      have : (chunk.length : Int) ≤ ((getRemainingDownloadBytes r).toNat : Int) := by
        exact_mod_cast Nat.le_of_not_lt hlt
      omega
  · intro hover
    show writeDataLength chunk.length r < chunk.length
    rw [hwd]
    have hlt : (getRemainingDownloadBytes r).toNat < chunk.length := by
      by_contra hge
      have : (chunk.length : Int) ≤ ((getRemainingDownloadBytes r).toNat : Int) := by
        exact_mod_cast Nat.le_of_not_lt hge
      omega
    rw [if_pos hlt]; exact hlt

/-- C3 witness: a 10-byte chunk against a 5-byte cap writes exactly 5 bytes
and returns 5 < 10, aborting the transfer. -/
theorem C3_write_callback_cap_invariant_witness :
    0 ≤ (curl_write_data "0123456789".toList exampleCapRequest).1.m_bytes_written ∧
    (curl_write_data "0123456789".toList exampleCapRequest).1.m_bytes_written ≤
      exampleCapRequest.m_max_download_bytes ∧
    (curl_write_data "0123456789".toList exampleCapRequest).1.m_max_download_bytes =
      exampleCapRequest.m_max_download_bytes ∧
    (exampleCapRequest.m_max_download_bytes <
        exampleCapRequest.m_bytes_written + ("0123456789".toList).length →
      (curl_write_data "0123456789".toList exampleCapRequest).2 <
        ("0123456789".toList).length) :=
  C3_write_callback_cap_invariant exampleCapRequest "0123456789".toList
    (by decide) (by decide) (by decide)

/-- C7: setting raw request data while multipart fields exist, or adding a
multipart field (data or file variant) while raw request data exists,
always fails with the usage error (`std::logic_error`) and returns the
request state entirely unchanged — no partial state change. -/
theorem C7_body_exclusivity (r : Request) (d n v p : String) (fs : String → Bool) :
    (r.m_mime_handle ≠ none →
      SetRequestData d r =
        (r, some (.logicError "Cannot SetRequestData on Request after using AddMimeField"))) ∧
    (r.m_request_data ≠ "" →
      AddMimeField n v r =
        (r, some (.logicError "Cannot AddMimeField on Request after using SetRequestData"))) ∧
    (r.m_request_data ≠ "" →
      AddMimeFileField fs n p r =
        (r, some (.logicError "Cannot AddMimeField on Request after using SetRequestData"))) := by
  refine ⟨fun hm => ?_, fun hd => ?_, fun hd => ?_⟩
  · simp [SetRequestData, hm]
  · simp [AddMimeField, hd]
  · simp [AddMimeFileField, hd]

/-- C7 witness: on a request with raw data `"x"` and one mime field, all
three guarded mutators fail with the usage error and leave it unchanged. -/
theorem C7_body_exclusivity_witness :
    SetRequestData "d" exampleBothBodies =
      (exampleBothBodies,
        some (.logicError "Cannot SetRequestData on Request after using AddMimeField")) ∧
    AddMimeField "f" "v" exampleBothBodies =
      (exampleBothBodies,
        some (.logicError "Cannot AddMimeField on Request after using SetRequestData")) ∧
    AddMimeFileField (fun _ => true) "f" "p" exampleBothBodies =
      (exampleBothBodies,
        some (.logicError "Cannot AddMimeField on Request after using SetRequestData")) :=
  ⟨(C7_body_exclusivity exampleBothBodies "d" "f" "v" "p" (fun _ => true)).1 (by decide),
   (C7_body_exclusivity exampleBothBodies "d" "f" "v" "p" (fun _ => true)).2.1 (by decide),
   (C7_body_exclusivity exampleBothBodies "d" "f" "v" "p" (fun _ => true)).2.2 (by decide)⟩

/-- `Reset` establishes the idle-request invariant, whatever state the
request was in. -/
lemma idleInvariant_Reset (r : Request) : idleInvariant (Reset r) := by
  refine ⟨rfl, ?_, rfl, ?_, rfl, rfl⟩ <;>
    simp [Reset, clearResponseBuffers, initRequest, SetMaxDownloadBytes, reserveBuf] <;>
    split <;> rfl

/-- The requests `Reserve` constructs satisfy the idle-request invariant. -/
lemma idleInvariant_reserveFresh (e : UrlEngine) : idleInvariant (reserveFresh e) := by
  refine ⟨rfl, ?_, rfl, ?_, rfl, rfl⟩ <;> rfl

/-- `Produce` never adds a request to the free-list: the post-state is a
sub-list of the pre-state. -/
lemma produce_pool_mem (e : UrlEngine) (url : String) (h : Option Nat) (t : Int)
    (w : Option Nat) (pool : List Request) (r : Request)
    (hr : r ∈ (Produce e url h t w pool).2) : r ∈ pool := by
  unfold Produce at hr
  cases hl : pool.getLast? with
  | none => rw [hl] at hr; exact hr
  | some back => rw [hl] at hr; exact List.mem_of_mem_dropLast hr

/-- Invariant preservation along any pool-operation sequence. -/
lemma runPool_invariant_aux (e : UrlEngine) (ops : List PoolOp) :
    ∀ pool : List Request, (∀ r ∈ pool, idleInvariant r) →
      ∀ r ∈ ops.foldl (poolStep e) pool, idleInvariant r := by
  induction ops with
  | nil => intro pool hp r hr; exact hp r hr
  | cons op ops ih =>
      intro pool hp r hr
      refine ih (poolStep e pool op) ?_ r hr
      intro s hs
      cases op with
      | reserveOp n =>
          simp only [poolStep, Reserve, List.mem_append] at hs
          rcases hs with hs | hs
          · exact hp s hs
          · rw [List.eq_of_mem_replicate hs]; exact idleInvariant_reserveFresh e
      | produceOp url h t w => exact hp s (produce_pool_mem e url h t w pool s hs)
      | returnOp q =>
          simp only [poolStep, returnRequest, List.mem_append, List.mem_singleton] at hs
          rcases hs with hs | hs
          · exact hp s hs
          · rw [hs]; exact idleInvariant_Reset q

/-- C4: every request held in the pool's free-list — after any sequence of
reserve / produce / return operations, under any URL engine — is in status
`BUILDING` with cleared response buffers and cleared request headers:
`returnRequest` always resets before pushing, and `Reserve` only inserts
freshly constructed requests that already satisfy this state. -/
theorem C4_free_list_idle_invariant (e : UrlEngine) (ops : List PoolOp) (r : Request)
    (hr : r ∈ runPool e ops) : idleInvariant r :=
  runPool_invariant_aux e ops [] (by intro s hs; cases hs) r hr

/-- C4 witness: a used request returned to the pool sits there reset —
status `BUILDING`, all modelled buffers empty. -/
theorem C4_free_list_idle_invariant_witness :
    idleInvariant (Reset exampleBothBodies) :=
  C4_free_list_idle_invariant exampleEngine [PoolOp.returnOp exampleBothBodies]
    (Reset exampleBothBodies)
    (by simp [runPool, poolStep, returnRequest])

/-- C10: `SetUrl` returns `true` exactly when the URL is non-empty and the
engine accepts it; whenever it returns `false` (in particular on the empty
string) the stored URL `m_url` is unchanged. -/
theorem C10_set_url_contract (e : UrlEngine) (url : String) (r : Request) :
    ((SetUrl e url r).2 = true ↔ url ≠ "" ∧ (e url).isSome = true) ∧
    ((SetUrl e url r).2 = false → (SetUrl e url r).1.m_url = r.m_url) := by
  unfold SetUrl
  by_cases h : url = ""
  · simp [h]
  · cases he : e url <;> simp [h, he]

/-- C10 witness: the empty string is rejected and leaves `m_url` as it
was; a non-empty URL the engine accepts returns `true`. -/
theorem C10_set_url_contract_witness :
    ((SetUrl exampleEngine "" baseRequest).1.m_url = baseRequest.m_url) ∧
    ((SetUrl exampleEngine "http://example.com/" baseRequest).2 = true ↔
      "http://example.com/" ≠ "" ∧ (exampleEngine "http://example.com/").isSome = true) :=
  ⟨(C10_set_url_contract exampleEngine "" baseRequest).2 (by decide),
   (C10_set_url_contract exampleEngine "http://example.com/" baseRequest).1⟩

/-- C5: the claim fails on the code.  On a pool whose free-list is
non-empty (here: one returned request), `Produce` with a supplied
response-wait timeout of 50 ms hands back a request whose
`m_response_wait_time` is `none` — the free-list path applies only the
handler, the URL and the transport timeout — whereas constructing a fresh
`Request` from the very same arguments stores `some 50`.  The popped
request therefore does not carry the same configuration as a freshly
constructed one. -/
theorem C5_response_wait_time_dropped_on_pooled_path :
    (Produce exampleEngine "http://example.com/" (some 1) 1000 (some 50)
        (returnRequest baseRequest [])).1.m_response_wait_time = none ∧
    (freshRequest exampleEngine "http://example.com/" 1000 (some 50) (some 1)
        (-1)).m_response_wait_time = some 50 ∧
    (Produce exampleEngine "http://example.com/" (some 1) 1000 (some 50)
        (returnRequest baseRequest [])).1.m_response_wait_time ≠
      (freshRequest exampleEngine "http://example.com/" 1000 (some 50) (some 1)
        (-1)).m_response_wait_time := by
  refine ⟨rfl, rfl, ?_⟩
  intro h
  rw [show (Produce exampleEngine "http://example.com/" (some 1) 1000 (some 50)
      (returnRequest baseRequest [])).1.m_response_wait_time = none from rfl,
    show (freshRequest exampleEngine "http://example.com/" 1000 (some 50) (some 1)
      (-1)).m_response_wait_time = some 50 from rfl] at h
  exact Option.noConfusion h

/-- Weakening a `Tracks` relation pointwise. -/
lemma tracks_imp (P Q : HeaderSlice → List Char → Prop) (h : ∀ s c, P s c → Q s c) :
    ∀ idx cs, Tracks P idx cs → Tracks Q idx cs := by
  intro idx
  induction idx with
  | nil => intro cs ht; cases cs with
      | nil => trivial
      | cons c cs => cases ht
  | cons s idx ih =>
      intro cs ht
      cases cs with
      | nil => cases ht
      | cons c cs => exact ⟨h s c ht.1, ih cs ht.2⟩

/-- Appending one related pair to a `Tracks` relation. -/
lemma tracks_snoc (P : HeaderSlice → List Char → Prop) :
    ∀ idx cs, Tracks P idx cs → ∀ s c, P s c → Tracks P (idx ++ [s]) (cs ++ [c]) := by
  intro idx
  induction idx with
  | nil => intro cs ht s c hp; cases cs with
      | nil => exact ⟨hp, trivial⟩
      | cons c0 cs => cases ht
  | cons s0 idx ih =>
      intro cs ht s c hp
      cases cs with
      | nil => cases ht
      | cons c0 cs => exact ⟨ht.1, ih cs ht.2 s c hp⟩

/-- `Tracks` forces equal lengths. -/
lemma tracks_length (P : HeaderSlice → List Char → Prop) :
    ∀ idx cs, Tracks P idx cs → idx.length = cs.length := by
  intro idx
  induction idx with
  | nil => intro cs ht; cases cs with
      | nil => rfl
      | cons c cs => cases ht
  | cons s idx ih =>
      intro cs ht
      cases cs with
      | nil => cases ht
      | cons c cs => simpa using ih cs ht.2

/-- Extracting the pointwise fact at an index from `Tracks`. -/
lemma tracks_getElem (P : HeaderSlice → List Char → Prop) :
    ∀ (idx : List HeaderSlice) (cs : List (List Char)), Tracks P idx cs →
      ∀ (i : Nat) (s : HeaderSlice) (c : List Char),
        idx[i]? = some s → cs[i]? = some c → P s c := by
  intro idx
  induction idx with
  | nil => intro cs ht i s c hs hc; simp at hs
  | cons s0 idx ih =>
      intro cs ht i s c hs hc
      cases cs with
      | nil => cases ht
      | cons c0 cs =>
          cases i with
          | zero =>
              simp only [List.getElem?_cons_zero, Option.some.injEq] at hs hc
              rw [← hs, ← hc]; exact ht.1
          | succ n =>
              simp only [List.getElem?_cons_succ] at hs hc
              exact ih cs ht.2 n s c hs hc

/-- When every tracked slice resolves, committing the index yields exactly
the tracked texts. -/
lemma tracks_commit (b : GrowBuf) :
    ∀ idx cs, Tracks (fun s c => readSlice b s = some c) idx cs →
      commitSlices b idx = some cs := by
  intro idx
  induction idx with
  | nil => intro cs ht; cases cs with
      | nil => rfl
      | cons c cs => cases ht
  | cons s idx ih =>
      intro cs ht
      cases cs with
      | nil => cases ht
      | cons c cs =>
          unfold commitSlices
          rw [ht.1, ih cs ht.2]

/-- Growing preserves the contents. -/
lemma reserveGrow_data (b : GrowBuf) (t : Nat) : (reserveGrow b t).data = b.data := by
  unfold reserveGrow; split <;> rfl

/-- Growing bumps the generation by zero or one. -/
lemma reserveGrow_gen_cases (b : GrowBuf) (t : Nat) :
    (reserveGrow b t).gen = b.gen ∨ (reserveGrow b t).gen = b.gen + 1 := by
  unfold reserveGrow; split
  · exact Or.inr rfl
  · exact Or.inl rfl

/-- A prefix-confined slice reads the same after the arena is extended. -/
lemma drop_take_append_of_le (l1 l2 : List Char) (o n : Nat) (h : o + n ≤ l1.length) :
    ((l1 ++ l2).drop o).take n = (l1.drop o).take n := by
  rw [List.drop_append_of_le_length (by omega)]
  rw [List.take_append_of_le_length (by simp; omega)]

/-- Surviving slices keep resolving across one `idxAppend` step. -/
lemma sliceOk_extend (g0 : Nat) (b : GrowBuf) (bytes : List Char) (s : HeaderSlice)
    (c : List Char) (h : SliceOk g0 b s c) : SliceOk g0 (bufAfter bytes b) s c := by
  obtain ⟨h1, h2, h3, h4⟩ := h
  have hdata : (bufAfter bytes b).data = b.data ++ bytes := by
    simp [bufAfter, reserveGrow_data]
  have hgen : (bufAfter bytes b).gen = (reserveGrow b (b.data.length + bytes.length)).gen := rfl
  refine ⟨h1, ?_, ?_, ?_⟩
  · rcases reserveGrow_gen_cases b (b.data.length + bytes.length) with hg | hg <;>
      rw [hgen, hg] <;> omega
  · rw [hdata]; simp; omega
  · intro hcur
    rcases reserveGrow_gen_cases b (b.data.length + bytes.length) with hg | hg
    · rw [hgen, hg] at hcur
      rw [hdata, drop_take_append_of_le b.data bytes s.off s.len h3]
      exact h4 hcur
    · rw [hgen, hg] at hcur; omega

/-- The slice `idxAppend` records resolves to the appended text. -/
lemma sliceOk_new (g0 : Nat) (b : GrowBuf) (bytes : List Char) (slen : Nat)
    (hg0 : g0 ≤ b.gen) (hsl : slen ≤ bytes.length) :
    SliceOk g0 (bufAfter bytes b)
      ⟨(reserveGrow b (b.data.length + bytes.length)).gen, b.data.length, slen⟩
      (bytes.take slen) := by
  have hdata : (bufAfter bytes b).data = b.data ++ bytes := by
    simp [bufAfter, reserveGrow_data]
  have hgen : (bufAfter bytes b).gen = (reserveGrow b (b.data.length + bytes.length)).gen := rfl
  refine ⟨?_, le_of_eq hgen.symm, ?_, ?_⟩
  · show g0 ≤ (reserveGrow b (b.data.length + bytes.length)).gen
    rcases reserveGrow_gen_cases b (b.data.length + bytes.length) with hg | hg <;>
      rw [hg] <;> omega
  · show b.data.length + slen ≤ (bufAfter bytes b).data.length
    rw [hdata]; simp; omega
  · intro _
    show ((bufAfter bytes b).data.drop b.data.length).take slen = bytes.take slen
    rw [hdata]
    have hd : (b.data ++ bytes).drop b.data.length = bytes := List.drop_left b.data bytes
    rw [hd]

/-- One `idxAppend` step extends the tracking relation by the new entry. -/
lemma tracks_idxAppend (g0 : Nat) (b : GrowBuf) (idx : List HeaderSlice)
    (cs : List (List Char)) (bytes : List Char) (slen : Nat)
    (hg0 : g0 ≤ b.gen) (hsl : slen ≤ bytes.length)
    (ht : Tracks (SliceOk g0 b) idx cs) :
    Tracks (SliceOk g0 (idxAppend bytes slen b idx).1) (idxAppend bytes slen b idx).2
      (cs ++ [bytes.take slen]) := by
  have h1 : (idxAppend bytes slen b idx).1 = bufAfter bytes b := rfl
  have h2 : (idxAppend bytes slen b idx).2 =
      idx ++ [⟨(reserveGrow b (b.data.length + bytes.length)).gen, b.data.length, slen⟩] := by
    simp [idxAppend, reserveGrow_data]
  rw [h1, h2]
  exact tracks_snoc _ idx cs
    (tracks_imp _ _ (fun s c => sliceOk_extend g0 b bytes s c) idx cs ht)
    _ _ (sliceOk_new g0 b bytes slen hg0 hsl)

/-- `bufAfter` never lowers the generation. -/
lemma bufAfter_gen_le (b : GrowBuf) (bytes : List Char) :
    b.gen ≤ (bufAfter bytes b).gen := by
  rcases reserveGrow_gen_cases b (b.data.length + bytes.length) with hg | hg <;>
    simp [bufAfter, hg]

/-- The serialized header splits as its indexed text plus the null byte. -/
lemma serializeHeader_eq (n v : List Char) :
    serializeHeader n v = headerText n v ++ ['\x00'] := by
  simp [serializeHeader, headerText]

/-- The indexed text is `header_len - 1` bytes long. -/
lemma headerText_length (n v : List Char) :
    (headerText n v).length = n.length + v.length + 2 := by
  by_cases hv : v = []
  · simp [headerText, hv]
  · simp [headerText, hv]
    omega

/-- The serialized header is `header_len` bytes long — the quantity
`AddHeader` sizes the growth by. -/
lemma serializeHeader_length (n v : List Char) :
    (serializeHeader n v).length = n.length + v.length + 3 := by
  rw [serializeHeader_eq]
  simp [headerText_length]

/-- The recorded slice of a serialized header is exactly its text. -/
lemma serializeHeader_take (n v : List Char) :
    (serializeHeader n v).take (n.length + v.length + 3 - 1) = headerText n v := by
  rw [serializeHeader_eq]
  have h : n.length + v.length + 3 - 1 = (headerText n v).length := by
    rw [headerText_length]; omega
  rw [h, List.take_left]

/-- The request-header tracking invariant survives any `AddHeader`
sequence, accumulating one `headerText` per call. -/
lemma addHeaders_tracks (g0 : Nat) :
    ∀ (hs : List (List Char × List Char)) (r : Request) (cs : List (List Char)),
      g0 ≤ r.m_request_headers.gen →
      Tracks (SliceOk g0 r.m_request_headers) r.m_request_headers_idx cs →
      Tracks (SliceOk g0 (runAddHeaders r hs).m_request_headers)
          (runAddHeaders r hs).m_request_headers_idx
          (cs ++ hs.map (fun p => headerText p.1 p.2)) ∧
        g0 ≤ (runAddHeaders r hs).m_request_headers.gen := by
  intro hs
  induction hs with
  | nil =>
      intro r cs hg ht
      simpa [runAddHeaders] using ⟨ht, hg⟩
  | cons p hs ih =>
      intro r cs hg ht
      have hstep : runAddHeaders r (p :: hs) = runAddHeaders (AddHeader p.1 p.2 r) hs := rfl
      have hsl : p.1.length + p.2.length + 3 - 1 ≤ (serializeHeader p.1 p.2).length := by
        rw [serializeHeader_length]; omega
      have htr := tracks_idxAppend g0 r.m_request_headers r.m_request_headers_idx cs
        (serializeHeader p.1 p.2) (p.1.length + p.2.length + 3 - 1) hg hsl ht
      rw [serializeHeader_take] at htr
      have hbuf : (AddHeader p.1 p.2 r).m_request_headers =
          bufAfter (serializeHeader p.1 p.2) r.m_request_headers := rfl
      have hg' : g0 ≤ (AddHeader p.1 p.2 r).m_request_headers.gen := by
        rw [hbuf]
        exact le_trans hg (bufAfter_gen_le r.m_request_headers (serializeHeader p.1 p.2))
      have := ih (AddHeader p.1 p.2 r) (cs ++ [headerText p.1 p.2]) hg' htr
      rw [hstep]
      simpa using this

/-- `curl_write_header` never touches the completion flag. -/
lemma curl_write_header_fired (c : List Char) (r : Request) :
    (curl_write_header c r).1.m_on_complete_has_been_called =
      r.m_on_complete_has_been_called := by
  unfold curl_write_header
  split
  · rfl
  · cases headerFilter c <;> rfl

/-- The response-header tracking invariant survives any chunk sequence,
accumulating the filtered lines in arrival order. -/
lemma writeHeaders_tracks (g0 : Nat) :
    ∀ (chunks : List (List Char)) (r : Request) (cs : List (List Char)),
      r.m_on_complete_has_been_called = false →
      g0 ≤ r.m_response_headers.gen →
      Tracks (SliceOk g0 r.m_response_headers) r.m_response_headers_idx cs →
      Tracks (SliceOk g0 (runWriteHeaders r chunks).m_response_headers)
          (runWriteHeaders r chunks).m_response_headers_idx (cs ++ respTexts chunks) ∧
        g0 ≤ (runWriteHeaders r chunks).m_response_headers.gen := by
  intro chunks
  induction chunks with
  | nil =>
      intro r cs _ hg ht
      simpa [runWriteHeaders, respTexts] using ⟨ht, hg⟩
  | cons c rest ih =>
      intro r cs hfired hg ht
      have hstep : runWriteHeaders r (c :: rest) =
          runWriteHeaders (curl_write_header c r).1 rest := rfl
      cases hf : headerFilter c with
      | none =>
          have hid : (curl_write_header c r).1 = r := by
            simp [curl_write_header, hfired, hf]
          have := ih (curl_write_header c r).1 cs (by rw [hid]; exact hfired)
            (by rw [hid]; exact hg) (by rw [hid]; exact ht)
          rw [hstep]
          simpa [respTexts, List.filterMap_cons, hf] using this
      | some t =>
          have hout : (curl_write_header c r).1 =
              { r with
                  m_response_headers :=
                    (idxAppend t t.length r.m_response_headers r.m_response_headers_idx).1
                  m_response_headers_idx :=
                    (idxAppend t t.length r.m_response_headers r.m_response_headers_idx).2 } := by
            simp [curl_write_header, hfired, hf]
          have htr := tracks_idxAppend g0 r.m_response_headers r.m_response_headers_idx cs
            t t.length hg (le_refl t.length) ht
          rw [List.take_length] at htr
          have hg' : g0 ≤ (curl_write_header c r).1.m_response_headers.gen := by
            rw [hout]
            exact le_trans hg (bufAfter_gen_le r.m_response_headers t)
          have := ih (curl_write_header c r).1 (cs ++ [t])
            (by rw [hout]; exact hfired)
            hg'
            (by rw [hout]; exact htr)
          rw [hstep]
          simpa [respTexts, List.filterMap_cons, hf] using this

/-- C8 (amended): an index entry is stable only as long as the buffer has
not been reallocated since the entry was taken.  Starting from empty
indices, after any sequence of `add_header` calls the request-header index
has one entry per call, and the `i`-th entry resolves to exactly the `i`-th
appended `Name: value` text precisely when its recorded generation is still
the buffer's current one — an entry predating a growth reads as dangling
(`none`), not as its pair.  The same characterization holds for the
response-header index over any sequence of engine header chunks. -/
theorem C8_header_index_stability (r0 : Request)
    (hreq : r0.m_request_headers_idx = [])
    (hresp : r0.m_response_headers_idx = [])
    (hfired : r0.m_on_complete_has_been_called = false)
    (hs : List (List Char × List Char)) (chunks : List (List Char)) :
    ((runAddHeaders r0 hs).m_request_headers_idx.length = hs.length ∧
      ∀ (i : Nat) (p : List Char × List Char) (s : HeaderSlice),
        hs[i]? = some p →
        (runAddHeaders r0 hs).m_request_headers_idx[i]? = some s →
        readSlice (runAddHeaders r0 hs).m_request_headers s =
          (if s.sgen = (runAddHeaders r0 hs).m_request_headers.gen
           then some (headerText p.1 p.2) else none)) ∧
    ((runWriteHeaders r0 chunks).m_response_headers_idx.length = (respTexts chunks).length ∧
      ∀ (i : Nat) (t : List Char) (s : HeaderSlice),
        (respTexts chunks)[i]? = some t →
        (runWriteHeaders r0 chunks).m_response_headers_idx[i]? = some s →
        readSlice (runWriteHeaders r0 chunks).m_response_headers s =
          (if s.sgen = (runWriteHeaders r0 chunks).m_response_headers.gen
           then some t else none)) := by
  have hreqtr := addHeaders_tracks r0.m_request_headers.gen hs r0 [] (le_refl _)
    (by rw [hreq]; trivial)
  have hresptr := writeHeaders_tracks r0.m_response_headers.gen chunks r0 [] hfired
    (le_refl _) (by rw [hresp]; trivial)
  constructor
  · constructor
    · have := tracks_length _ _ _ hreqtr.1
      simpa using this
    · intro i p s hp hsi
      have hok := tracks_getElem _ _ _ hreqtr.1 i s (headerText p.1 p.2) hsi
        (by simp [hp])
      unfold readSlice
      by_cases hcur : s.sgen = (runAddHeaders r0 hs).m_request_headers.gen
      · rw [if_pos hcur, if_pos hcur, hok.2.2.2 hcur]
      · rw [if_neg hcur, if_neg hcur]
  · constructor
    · have := tracks_length _ _ _ hresptr.1
      simpa using this
    · intro i t s hptr hsi
      have hok := tracks_getElem _ _ _ hresptr.1 i s t hsi (by simp [hptr])
      unfold readSlice
      by_cases hcur : s.sgen = (runWriteHeaders r0 chunks).m_response_headers.gen
      · rw [if_pos hcur, if_pos hcur, hok.2.2.2 hcur]
      · rw [if_neg hcur, if_neg hcur]

/-- C8 witness: one `add_header("A", "B")` call on a fresh request yields a
one-entry index whose entry resolves per the stability characterization. -/
theorem C8_header_index_stability_witness :
    (runAddHeaders baseRequest [("A".toList, "B".toList)]).m_request_headers_idx.length = 1 ∧
    readSlice (runAddHeaders baseRequest [("A".toList, "B".toList)]).m_request_headers
        ⟨0, 0, 4⟩ =
      (if (⟨0, 0, 4⟩ : HeaderSlice).sgen =
          (runAddHeaders baseRequest [("A".toList, "B".toList)]).m_request_headers.gen
       then some (headerText "A".toList "B".toList) else none) :=
  ⟨(C8_header_index_stability baseRequest rfl rfl rfl [("A".toList, "B".toList)] []).1.1,
   (C8_header_index_stability baseRequest rfl rfl rfl [("A".toList, "B".toList)] []).1.2
     0 ("A".toList, "B".toList) ⟨0, 0, 4⟩ rfl rfl⟩

/-- The generation after `bufAfter`, left symbolic. -/
lemma bufAfter_gen (bytes : List Char) (b : GrowBuf) :
    (bufAfter bytes b).gen = (reserveGrow b (b.data.length + bytes.length)).gen := rfl

/-- A growth that is actually needed reallocates: generation plus one. -/
lemma reserveGrow_gen_of_lt (b : GrowBuf) (t : Nat) (h : b.cap < t) :
    (reserveGrow b t).gen = b.gen + 1 := by
  unfold reserveGrow
  rw [if_pos h]

/-- One `AddHeader` call, seen on the request-header arena. -/
lemma AddHeader_buf (n v : List Char) (r : Request) :
    (AddHeader n v r).m_request_headers = bufAfter (serializeHeader n v) r.m_request_headers :=
  rfl

/-- Unfolding one step of a header sequence. -/
lemma runAddHeaders_cons (r : Request) (p : List Char × List Char)
    (hs : List (List Char × List Char)) :
    runAddHeaders r (p :: hs) = runAddHeaders (AddHeader p.1 p.2 r) hs := rfl

/-- The empty header sequence does nothing. -/
lemma runAddHeaders_nil (r : Request) : runAddHeaders r [] = r := rfl

/-- The big header value is 16380 bytes long. -/
lemma bigHeaderValue_length : bigHeaderValue.length = 16380 := by
  rw [show bigHeaderValue = List.replicate 16380 'a' from rfl, List.length_replicate]

/-- The serialized big header is 16384 bytes, which together with the 5
bytes already in the arena exceeds the 16384-byte capacity. -/
lemma overflow_second_header_length :
    (serializeHeader "C".toList bigHeaderValue).length = 16384 := by
  rw [serializeHeader_length, bigHeaderValue_length]
  decide

/-- The first header of `overflowHeaders` leaves the arena at generation 0
with the 5 serialized bytes as its data. -/
lemma overflow_first_buf :
    (AddHeader "A".toList "B".toList baseRequest).m_request_headers =
      ⟨serializeHeader "A".toList "B".toList, 16384, 0⟩ := rfl

/-- Appending the second header of `overflowHeaders` reallocates: the final
arena is at generation 1. -/
lemma overflow_final_gen :
    (runAddHeaders baseRequest overflowHeaders).m_request_headers.gen = 1 := by
  rw [show overflowHeaders = [("A".toList, "B".toList), ("C".toList, bigHeaderValue)] from rfl]
  rw [runAddHeaders_cons, runAddHeaders_cons, runAddHeaders_nil]
  dsimp only
  rw [AddHeader_buf "C".toList bigHeaderValue, overflow_first_buf, bufAfter_gen]
  have hdl : (⟨serializeHeader "A".toList "B".toList, 16384, 0⟩ : GrowBuf).data.length = 5 :=
    rfl
  rw [hdl, overflow_second_header_length]
  rw [reserveGrow_gen_of_lt _ _ (by decide)]

/-- C8 counterexample to the claim as stated: after `add_header("A", "B")`
followed by an `add_header` whose append grows the buffer, the index still
has two entries, but entry 0 no longer reads back as its pair `"A: B"` —
its view dangles (reads as `none`), because the reallocation invalidated
it. -/
theorem C8_counterexample_entry_dangles_after_growth :
    (runAddHeaders baseRequest overflowHeaders).m_request_headers_idx.length = 2 ∧
    readHeaderEntry (runAddHeaders baseRequest overflowHeaders) 0 = none ∧
    readHeaderEntry (runAddHeaders baseRequest overflowHeaders) 0 ≠
      some (headerText "A".toList "B".toList) := by
  have h0 : (runAddHeaders baseRequest overflowHeaders).m_request_headers_idx[0]? =
      some ⟨0, 0, 4⟩ := rfl
  have hread : readHeaderEntry (runAddHeaders baseRequest overflowHeaders) 0 = none := by
    unfold readHeaderEntry
    rw [h0]
    show readSlice (runAddHeaders baseRequest overflowHeaders).m_request_headers ⟨0, 0, 4⟩ =
      none
    unfold readSlice
    rw [if_neg]
    intro hgen
    rw [overflow_final_gen] at hgen
    exact absurd hgen (by decide)
  refine ⟨rfl, hread, ?_⟩
  rw [hread]
  exact fun h => Option.noConfusion h

/-- C9 (amended): `add_header` appends to the request in user call order
with duplicate names preserved, and — as long as the arena was not
reallocated by the appends — the committed header list is exactly the
serialized headers in call order, where a header with an empty value is
serialized as `Name: ` (name, colon, separator space, no value bytes), the
form curl's header list treats as "no value", used to suppress
engine-auto-added headers. -/
theorem C9_header_user_order_and_empty_value (r0 : Request)
    (hidx : r0.m_request_headers_idx = [])
    (hs : List (List Char × List Char))
    (hgen : (runAddHeaders r0 hs).m_request_headers.gen = r0.m_request_headers.gen) :
    committedRequestHeaders (runAddHeaders r0 hs) =
      some (hs.map fun p => headerText p.1 p.2) ∧
    ∀ n : List Char, headerText n [] = n ++ [':', ' '] := by
  have h := addHeaders_tracks r0.m_request_headers.gen hs r0 [] (le_refl _)
    (by rw [hidx]; trivial)
  have htr := h.1
  rw [List.nil_append] at htr
  have htr' : Tracks
      (fun s c => readSlice (runAddHeaders r0 hs).m_request_headers s = some c)
      (runAddHeaders r0 hs).m_request_headers_idx
      (hs.map fun p => headerText p.1 p.2) := by
    refine tracks_imp _ _ (fun s c hok => ?_) _ _ htr
    obtain ⟨h1, h2, _, h4⟩ := hok
    have hsg : s.sgen = (runAddHeaders r0 hs).m_request_headers.gen := by
      refine le_antisymm h2 ?_
      rw [hgen]
      exact h1
    unfold readSlice
    rw [if_pos hsg, h4 hsg]
  exact ⟨tracks_commit _ _ _ htr', fun n => by simp [headerText]⟩

/-- C9 witness: two `add_header("Accept", ...)` calls — first with an empty
value, then with value `"x"` — commit in call order with the duplicate
preserved and the empty-value entry serialized as `Accept: `. -/
theorem C9_header_user_order_and_empty_value_witness :
    committedRequestHeaders (runAddHeaders baseRequest dupHeaders) =
      some (dupHeaders.map fun p => headerText p.1 p.2) :=
  (C9_header_user_order_and_empty_value baseRequest rfl dupHeaders rfl).1

/-- C9 counterexample to the claim as stated: the committed entry for
`add_header("Accept")` (empty value) is the nine bytes `Accept: ` — with a
trailing separator space after the colon — not the literal `Accept:`. -/
theorem C9_counterexample_empty_value_serializes_with_space :
    committedRequestHeaders (AddHeader "Accept".toList [] baseRequest) =
      some ["Accept: ".toList] ∧
    ("Accept: ".toList : List Char) ≠ "Accept:".toList := by
  exact ⟨by decide, by decide⟩

end Lift
